import Mathlib

/-!
Shallow embedding of the two MCP tool handlers of this repository:
the tabular schedule tool (`get-iss-schedule`, reading a local CSV) and the
external weather tool (`get_weather`, querying a search API).  Handlers are
embedded as pure functions over explicit parameters standing for their I/O
boundaries (file-read outcome, search-transport outcome); JavaScript string
semantics (truthiness, `includes`, `toLowerCase`, template interpolation,
`||` defaulting) are translated explicitly.
-/

/-- A row of the ISS crew schedule CSV, mirroring `CrewRecordSchema`:
fields Date, Day, "Crew Member", Role, "Shift Start (UTC)", "Shift End (UTC)",
Activity, Location, and optional Notes — all plain strings. -/
structure CrewRecord where
  Date : String
  Day : String
  crewMember : String
  Role : String
  shiftStart : String
  shiftEnd : String
  Activity : String
  Location : String
  Notes : Option String
deriving DecidableEq, Repr

/-- JavaScript truthiness of an optional string: `undefined` and `""` are
falsy, every other string is truthy (`if (day) { ... }`). -/
def truthyStr : Option String → Bool
  | none => false
  | some s => !(s == "")

/-- `haystack.includes(needle)` on character lists: contiguous-substring
test, mirroring JavaScript `String.prototype.includes`. -/
def jsIncludes [BEq α] (pat : List α) : List α → Bool
  | [] => pat.isEmpty
  | a :: as => pat.isPrefixOf (a :: as) || jsIncludes pat as

/-- Case-sensitive substring test on strings. -/
def strContains (s pat : String) : Bool :=
  jsIncludes pat.data s.data

/-- `s.toLowerCase()`: lower-case each character (written over the
character list so the kernel can evaluate it). -/
def toLowerStr (s : String) : String :=
  ⟨s.data.map Char.toLower⟩

/-- Case-insensitive substring test, mirroring
`s.toLowerCase().includes(pat.toLowerCase())`. -/
def containsCI (s pat : String) : Bool :=
  jsIncludes (toLowerStr pat).data (toLowerStr s).data

/-- The filter block of the schedule handler, translated statement by
statement:
`let filtered = records;`
`if (day) filtered = filtered.filter(r => r.Day.toLowerCase() === day.toLowerCase());`
`if (name) filtered = filtered.filter(r => r["Crew Member"].toLowerCase().includes(name.toLowerCase()));`
An absent or empty-string filter is skipped (JS truthiness). -/
def applyFilters (day name : Option String) (records : List CrewRecord) : List CrewRecord :=
  let filtered := records
  let filtered := if truthyStr day then
    filtered.filter (fun r => toLowerStr r.Day == toLowerStr (day.getD ""))
  else filtered
  let filtered := if truthyStr name then
    filtered.filter (fun r => containsCI r.crewMember (name.getD ""))
  else filtered
  filtered

/-- One item of an Envelope's `content` array, always `type: "text"`. -/
structure ContentItem where
  type : String
  text : String
deriving DecidableEq, Repr

/-- The Envelope returned by every handler: a `content` list plus a
`structuredContent` value whose shape is tool-specific. -/
structure Envelope (σ : Type) where
  content : List ContentItem
  structuredContent : σ
deriving DecidableEq, Repr

/-- `structuredContent` of the schedule tool: either `\x7b results: [...] \x7d`
(success, possibly empty) or `\x7b error: message \x7d` (the catch branch). -/
inductive SchedStructured where
  | results (rs : List CrewRecord)
  | err (msg : String)
deriving DecidableEq, Repr

/-- Outcome of the schedule tool's file access: the CSV may be missing
(`existsSync` returns false), the read/parse stream may reject with an
error, or it yields the parsed rows in file order. -/
inductive FileOutcome where
  | absent
  | readError (msg : String)
  | ok (records : List CrewRecord)
deriving Repr

/-- The fixed failure phrase of the schedule tool's catch branch. -/
def scheduleFailText : String := "Failed to read ISS schedule: "

/-- The message thrown when `existsSync(csvPath)` is false. -/
def fileNotFoundMsg : String := "Schedule file not found in util/ directory"

/-- The catch branch of the schedule handler: an error message becomes the
Failure envelope. -/
def schedFailure (msg : String) : Envelope SchedStructured :=
  { content := [{ type := "text", text := scheduleFailText ++ msg }]
    structuredContent := .err msg }

/-- JS `day || "—"`: the em-dash replaces an absent or empty filter in the
no-results message. -/
def orDash : Option String → String
  | none => "—"
  | some s => if s == "" then "—" else s

/-- The no-results message, naming both (possibly defaulted) filters. -/
def noResultsText (day name : Option String) : String :=
  "No schedule entries found for filters: day=\"" ++ orDash day ++
    "\", name=\"" ++ orDash name ++ "\""

/-- JS `r.Notes ? "\n📝 " + r.Notes : ""` (truthiness: absent or empty
notes are omitted). -/
def notesText : Option String → String
  | none => ""
  | some n => if n == "" then "" else "\n📝 " ++ n

/-- The per-record paragraph of the text summary, in the source's field
order: day/date header, crew member and role, shift time range, activity,
location, optional note. -/
def recordText (r : CrewRecord) : String :=
  "📅 **" ++ r.Day ++ " (" ++ r.Date ++ ")** — " ++ r.crewMember ++ " (" ++
    r.Role ++ ")\n🕕 " ++ r.shiftStart ++ " → " ++ r.shiftEnd ++
    "\n🔧 **Activity:** " ++ r.Activity ++ "\n📍 " ++ r.Location ++
    notesText r.Notes

/-- `Array.prototype.join(sep)`. -/
def joinSep (sep : String) : List String → String
  | [] => ""
  | [x] => x
  | x :: y :: xs => x ++ sep ++ joinSep sep (y :: xs)

/-- The success text: header with the entry count, then the per-record
paragraphs joined by a separator rule. -/
def successText (filtered : List CrewRecord) : String :=
  "🛰️ **ISS Crew Schedule** (" ++ toString filtered.length ++ " entries)\n\n" ++
    joinSep "\n\n---\n\n" (filtered.map recordText)

/-- The `get-iss-schedule` handler.  `file` stands for the outcome of the
`existsSync`/`createReadStream` I/O; the try/catch of the source is embedded
by totality: every thrown error is routed to `schedFailure`. -/
def scheduleHandler (day name : Option String) (file : FileOutcome) :
    Envelope SchedStructured :=
  match file with
  | .absent => schedFailure fileNotFoundMsg
  | .readError msg => schedFailure msg
  | .ok records =>
    let filtered := applyFilters day name records
    if filtered.isEmpty then
      { content := [{ type := "text", text := noResultsText day name }]
        structuredContent := .results [] }
    else
      { content := [{ type := "text", text := successText filtered }]
        structuredContent := .results filtered }

/-- The records of a schedule envelope's structured content (empty for the
failure shape). -/
def resultsOf (e : Envelope SchedStructured) : List CrewRecord :=
  match e.structuredContent with
  | .results rs => rs
  | .err _ => []

/-- The text of the first content item of an envelope. -/
def textOf {σ : Type} (e : Envelope σ) : String :=
  match e.content with
  | c :: _ => c.text
  | [] => ""

/-- The subset of a search response `answer_box` section the weather handler
reads.  The raw response is unstructured JSON, so each field may be absent
(`undefined` in JS); a present field is modelled by its rendered JSON value
text. -/
structure AnswerBox where
  temperature : Option String
  wind : Option String
  precipitation : Option String
deriving DecidableEq, Repr

/-- A search response as consumed by the weather handler: only the
`answer_box` section is ever read, and it may be absent. -/
structure SerpResponse where
  answer_box : Option AnswerBox
deriving DecidableEq, Repr

/-- `structuredContent` of the weather tool: either the projected fields
(each possibly absent in the response) or the sentinel object
`\x7b result: "not found" \x7d`. -/
inductive WeatherStructured where
  | extracted (temperature winds precipitation : Option String)
  | result (s : String)
deriving DecidableEq, Repr

/-- The members present in `JSON.stringify` of the extracted object:
members whose value is `undefined` are omitted. -/
def jsonMembers (t w p : Option String) : List String :=
  (match t with | some v => ["\"temperature\":" ++ v] | none => []) ++
    (match w with | some v => ["\"winds\":" ++ v] | none => []) ++
    (match p with | some v => ["\"precipitation\":" ++ v] | none => [])

/-- `JSON.stringify(output)` for the weather tool's two output shapes. -/
def jsonStringify : WeatherStructured → String
  | .extracted t w p => "\x7b" ++ String.intercalate "," (jsonMembers t w p) ++ "\x7d"
  | .result s => "\x7b\"result\":\"" ++ s ++ "\"\x7d"

/-- The source text a JS engine prints for the native `Date.prototype.toString`
method when it is coerced to a string without being called. -/
def jsDateToStringSrc : String := "function toString() \x7b [native code] \x7d"

/-- The validated `date_YYYYMMDD` input: a JS `Date`, carried here by its
calendar-date text. -/
structure JSDate where
  ymd : String
deriving DecidableEq, Repr

/-- Query construction from the source:
`"what is the weather in " + location_name + " on " + date_YYYYMMDD.toString`.
`toString` is referenced, not called, so `+` coerces the method object itself
to its source text: the date value never reaches the query. -/
def buildQuery (location_name : String) (date_YYYYMMDD : JSDate) : String :=
  "what is the weather in " ++ location_name ++ " on " ++ jsDateToStringSrc

/-- The response-shaping tail of the weather handler:
project `answer_box` when present, else the `\x7b result: "not found" \x7d`
sentinel; return the JSON text plus the structured object. -/
def weatherRespond (resp : SerpResponse) : Envelope WeatherStructured :=
  let output : WeatherStructured :=
    match resp.answer_box with
    | some body => .extracted body.temperature body.wind body.precipitation
    | none => .result "not found"
  { content := [{ type := "text", text := jsonStringify output }]
    structuredContent := output }

/-- The `get_weather` handler.  `search` stands for the search transport:
given the query text it either resolves to a response or rejects with an
error message.  The source has no try/catch, so a rejection propagates out
of the handler: the `Except.error` result is the escaped exception. -/
def weatherHandler (location_name : String) (date_YYYYMMDD : JSDate)
    (search : String → Except String SerpResponse) :
    Except String (Envelope WeatherStructured) :=
  match search (buildQuery location_name date_YYYYMMDD) with
  | .error e => .error e
  | .ok json => .ok (weatherRespond json)

/-- Whether a weather invocation ended with an exception escaping the
handler instead of an envelope. -/
def escaped (x : Except String (Envelope WeatherStructured)) : Bool :=
  match x with
  | .error _ => true
  | .ok _ => false

/-- Success-with-data Envelope shape (a non-empty results list). -/
def isSuccessData (e : Envelope SchedStructured) : Prop :=
  e.content ≠ [] ∧ ∃ rs, rs ≠ [] ∧ e.structuredContent = .results rs

/-- Empty-result success Envelope shape. -/
def isEmptySuccess (e : Envelope SchedStructured) : Prop :=
  e.content ≠ [] ∧ e.structuredContent = .results []

/-- Failure Envelope shape (`structuredContent` carries an error message). -/
def isFailureShape (e : Envelope SchedStructured) : Prop :=
  e.content ≠ [] ∧ ∃ msg, e.structuredContent = .err msg

/-- `pat` occurs contiguously in `s`. -/
def occursIn (pat s : String) : Prop :=
  pat.data <:+: s.data

/-- A concrete schedule row used to instantiate the theorems. -/
def sampleRec : CrewRecord :=
  { Date := "2025-10-06", Day := "Monday", crewMember := "Jane Doe"
    Role := "Commander", shiftStart := "06:00", shiftEnd := "14:00"
    Activity := "EVA preparation", Location := "Quest Airlock"
    Notes := some "Suit check" }

/-- The effective predicate of the day-filter statement: trivially true when
the filter is skipped. -/
def dayPred (day : Option String) (r : CrewRecord) : Bool :=
  if truthyStr day then toLowerStr r.Day == toLowerStr (day.getD "") else true

/-- The effective predicate of the name-filter statement: trivially true when
the filter is skipped. -/
def namePred (name : Option String) (r : CrewRecord) : Bool :=
  if truthyStr name then containsCI r.crewMember (name.getD "") else true

theorem jsIncludes_iff [BEq α] [LawfulBEq α] (pat l : List α) :
    jsIncludes pat l = true ↔ pat <:+: l := by
  induction l with
  | nil => simp [jsIncludes, List.isEmpty_iff, List.infix_nil]
  | cons a as ih =>
    simp [jsIncludes, Bool.or_eq_true, ih, List.infix_cons_iff,
      List.isPrefixOf_iff_prefix]

theorem jsIncludes_nil_left [BEq α] (l : List α) :
    jsIncludes ([] : List α) l = true := by
  cases l <;> simp [jsIncludes]

theorem containsCI_empty (s : String) : containsCI s "" = true := by
  have h : (toLowerStr "").data = [] := rfl
  rw [containsCI, h]
  exact jsIncludes_nil_left _

theorem applyFilters_eq_filter (day name : Option String)
    (records : List CrewRecord) :
    applyFilters day name records =
      records.filter (fun r => dayPred day r && namePred name r) := by
  unfold applyFilters dayPred namePred
  by_cases hd : truthyStr day = true <;> by_cases hn : truthyStr name = true <;>
    simp [hd, hn, List.filter_filter, Bool.and_comm]

theorem mem_applyFilters {day name : Option String} {records : List CrewRecord}
    {r : CrewRecord} :
    r ∈ applyFilters day name records ↔
      r ∈ records ∧ dayPred day r = true ∧ namePred name r = true := by
  simp [applyFilters_eq_filter, List.mem_filter, Bool.and_eq_true, and_assoc]

theorem resultsOf_scheduleHandler (day name : Option String)
    (records : List CrewRecord) :
    resultsOf (scheduleHandler day name (.ok records)) =
      applyFilters day name records := by
  unfold scheduleHandler
  by_cases h : (applyFilters day name records).isEmpty = true
  · simp [h, resultsOf, List.isEmpty_iff.mp h]
  · simp [h, resultsOf]

theorem textOf_scheduleHandler_ok (day name : Option String)
    (records : List CrewRecord) (h : applyFilters day name records ≠ []) :
    textOf (scheduleHandler day name (.ok records)) =
      successText (applyFilters day name records) := by
  unfold scheduleHandler
  have hne : (applyFilters day name records).isEmpty = false := by
    simpa [List.isEmpty_iff] using h
  simp [hne, textOf]

theorem occursIn_refl (s : String) : occursIn s s :=
  List.infix_rfl

theorem occursIn_trans {a b c : String} (h₁ : occursIn a b) (h₂ : occursIn b c) :
    occursIn a c :=
  List.IsInfix.trans h₁ h₂

theorem occursIn_appendL {p s : String} (h : occursIn p s) (t : String) :
    occursIn p (s ++ t) := by
  unfold occursIn at h ⊢
  rw [String.data_append]
  exact List.IsInfix.trans h ⟨[], t.data, by simp⟩

theorem occursIn_appendR {p s : String} (h : occursIn p s) (t : String) :
    occursIn p (t ++ s) := by
  unfold occursIn at h ⊢
  rw [String.data_append]
  exact List.IsInfix.trans h ⟨t.data, [], by simp⟩

theorem occursIn_head (p t : String) : occursIn p (p ++ t) :=
  occursIn_appendL (occursIn_refl p) t

theorem occursIn_tail {p t : String} (h : occursIn p t) (s : String) :
    occursIn p (s ++ t) :=
  occursIn_appendR h s

theorem occursIn_joinSep {x : String} {l : List String} (h : x ∈ l)
    (sep : String) : occursIn x (joinSep sep l) := by
  induction l with
  | nil => cases h
  | cons a as ih =>
    cases as with
    | nil =>
      rw [List.mem_singleton] at h
      subst h
      exact occursIn_refl x
    | cons b bs =>
      rcases List.mem_cons.mp h with h | h
      · subst h
        show occursIn x (x ++ sep ++ joinSep sep (b :: bs))
        exact occursIn_appendL (occursIn_head x sep) _
      · exact occursIn_tail (ih h) _

theorem filter_inter_filter {α : Type} [DecidableEq α] (p q : α → Bool)
    (l : List α) :
    (l.filter p).inter (l.filter q) = l.filter (fun a => p a && q a) := by
  unfold List.inter
  rw [List.filter_filter]
  apply List.filter_congr
  intro a ha
  by_cases hq : q a = true
  · simp [List.elem_iff, List.mem_filter, ha, hq]
  · simp [List.elem_iff, List.mem_filter, ha, hq]

/-- C2: the query issued to the search API at the failing input incorporates
the validated location value but not the validated date value: the source
reads `date_YYYYMMDD.toString` without calling it, so string concatenation
interpolates the method object's source text in place of the date. -/
theorem query_omits_date_value :
    strContains (buildQuery "Paris" ⟨"2024-01-01"⟩) "Paris" = true ∧
      strContains (buildQuery "Paris" ⟨"2024-01-01"⟩) "2024-01-01" = false ∧
      buildQuery "Paris" ⟨"2024-01-01"⟩ =
        "what is the weather in Paris on " ++ jsDateToStringSrc :=
  ⟨by decide, by decide, rfl⟩

/-- C5: with both a day filter and a name filter given, the returned result
equals the intersection of the day-only result and the name-only result —
the two filters compose with logical AND. -/
theorem filters_compose_and (d n : String) (records : List CrewRecord) :
    resultsOf (scheduleHandler (some d) (some n) (.ok records)) =
      (resultsOf (scheduleHandler (some d) none (.ok records))).inter
        (resultsOf (scheduleHandler none (some n) (.ok records))) := by
  rw [resultsOf_scheduleHandler, resultsOf_scheduleHandler,
    resultsOf_scheduleHandler, applyFilters_eq_filter, applyFilters_eq_filter,
    applyFilters_eq_filter, filter_inter_filter]
  apply List.filter_congr
  intro r hr
  simp [dayPred, namePred, truthyStr]

/-- C6: with neither filter given, the structured result is exactly the
full parsed record list, in file order. -/
theorem no_filters_returns_all (records : List CrewRecord) :
    (scheduleHandler none none (.ok records)).structuredContent =
      .results records := by
  have hf : applyFilters none none records = records := by
    simp [applyFilters, truthyStr]
  rcases eq_or_ne records [] with rfl | hne
  · simp [scheduleHandler, applyFilters, truthyStr]
  · have h : records.isEmpty = false := by
      simpa [List.isEmpty_iff] using hne
    simp [scheduleHandler, hf, h]

/-- C8: with the data file absent, the handler returns the Failure envelope:
`structuredContent` carries the non-empty thrown message and the first
content item's text is the fixed failure phrase followed by that message. -/
theorem missing_file_failure (day name : Option String) :
    (scheduleHandler day name .absent).structuredContent =
        .err fileNotFoundMsg ∧
      fileNotFoundMsg ≠ "" ∧
      textOf (scheduleHandler day name .absent) =
        scheduleFailText ++ fileNotFoundMsg :=
  ⟨rfl, by decide, rfl⟩

/-- C3: when a day filter is provided (a non-empty string — the code's
truthiness test skips an empty one), a record is returned exactly when it is
in the file, its Day field equals the filter case-insensitively (exact
match), and it also satisfies the name filter if one is given: no record
with a differing day is present and every matching record is returned. -/
theorem day_filter_exact_ci (d : String) (hd : d ≠ "") (name : Option String)
    (records : List CrewRecord) (r : CrewRecord) :
    r ∈ resultsOf (scheduleHandler (some d) name (.ok records)) ↔
      r ∈ records ∧ toLowerStr r.Day = toLowerStr d ∧
        ∀ n, name = some n → containsCI r.crewMember n = true := by
  rw [resultsOf_scheduleHandler, mem_applyFilters]
  constructor
  · rintro ⟨hm, hday, hname⟩
    refine ⟨hm, ?_, ?_⟩
    · unfold dayPred truthyStr at hday
      simp [hd] at hday
      exact hday
    · rintro n rfl
      rcases eq_or_ne n "" with rfl | hn
      · exact containsCI_empty _
      · unfold namePred truthyStr at hname
        simp [hn] at hname
        exact hname
  · rintro ⟨hm, hday, hname⟩
    refine ⟨hm, ?_, ?_⟩
    · unfold dayPred truthyStr
      simp [hd, hday]
    · unfold namePred truthyStr
      cases name with
      | none => simp
      | some n =>
        rcases eq_or_ne n "" with rfl | hn
        · simp
        · simp [hn]
          exact hname n rfl

/-- Witness for C3 at a concrete input: a one-row file and the filter
"monday" against the row's Day "Monday". -/
theorem day_filter_exact_ci_witness :
    ("monday" : String) ≠ "" ∧
      (sampleRec ∈ resultsOf (scheduleHandler (some "monday") none
            (.ok [sampleRec])) ↔
        sampleRec ∈ [sampleRec] ∧
          toLowerStr sampleRec.Day = toLowerStr "monday" ∧
          ∀ n, (none : Option String) = some n →
            containsCI sampleRec.crewMember n = true) :=
  ⟨by decide, day_filter_exact_ci "monday" (by decide) none [sampleRec] sampleRec⟩

/-- C4: when a name filter is provided, every record of the returned result
has a Crew Member field containing the filter as a substring
case-insensitively (so no record lacking that substring is present). -/
theorem name_filter_substring_ci (day : Option String) (n : String)
    (records : List CrewRecord) (r : CrewRecord)
    (hr : r ∈ resultsOf (scheduleHandler day (some n) (.ok records))) :
    containsCI r.crewMember n = true := by
  rw [resultsOf_scheduleHandler, mem_applyFilters] at hr
  rcases hr with ⟨-, -, hname⟩
  rcases eq_or_ne n "" with rfl | hn
  · exact containsCI_empty _
  · unfold namePred truthyStr at hname
    simp [hn] at hname
    exact hname

/-- Witness for C4 at a concrete input: the filter "jane" against the
row's Crew Member "Jane Doe". -/
theorem name_filter_substring_ci_witness :
    sampleRec ∈ resultsOf (scheduleHandler none (some "jane")
        (.ok [sampleRec])) ∧
      containsCI sampleRec.crewMember "jane" = true :=
  ⟨by decide, name_filter_substring_ci none "jane" [sampleRec] sampleRec (by decide)⟩

/-- C7: when the filters match no record, the handler returns the success
envelope whose structured content is the empty results list (not the
Failure shape) and whose text is the no-results message, which names the
(displayed) value of each applied filter. -/
theorem empty_result_envelope (day name : Option String)
    (records : List CrewRecord)
    (h : applyFilters day name records = []) :
    scheduleHandler day name (.ok records) =
        { content := [{ type := "text", text := noResultsText day name }]
          structuredContent := .results [] } ∧
      occursIn (orDash day) (textOf (scheduleHandler day name (.ok records))) ∧
      occursIn (orDash name) (textOf (scheduleHandler day name (.ok records))) := by
  have he : scheduleHandler day name (.ok records) =
      { content := [{ type := "text", text := noResultsText day name }]
        structuredContent := .results [] } := by
    simp [scheduleHandler, h]
  refine ⟨he, ?_, ?_⟩ <;> rw [he] <;> show occursIn _ (noResultsText day name)
  · unfold noResultsText
    exact occursIn_appendL (occursIn_appendL (occursIn_appendL
      (occursIn_appendR (occursIn_refl _) _) _) _) _
  · unfold noResultsText
    exact occursIn_appendL (occursIn_appendR (occursIn_refl _) _) _

/-- Witness for C7 at a concrete input: filtering a one-row Monday file
for "Tuesday" matches nothing. -/
theorem empty_result_envelope_witness :
    applyFilters (some "Tuesday") none [sampleRec] = [] ∧
      (scheduleHandler (some "Tuesday") none (.ok [sampleRec]) =
          { content := [{ type := "text", text := noResultsText (some "Tuesday") none }]
            structuredContent := .results [] } ∧
        occursIn (orDash (some "Tuesday"))
          (textOf (scheduleHandler (some "Tuesday") none (.ok [sampleRec]))) ∧
        occursIn (orDash (none : Option String))
          (textOf (scheduleHandler (some "Tuesday") none (.ok [sampleRec])))) :=
  ⟨by decide, empty_result_envelope (some "Tuesday") none [sampleRec] (by decide)⟩

/-- C1 counterexample: the weather handler has no try/catch, so with the
search transport rejecting (the source's own rejection message), the
invocation ends as an escaped exception — not as any of the three Envelope
shapes. -/
theorem weather_rejection_escapes :
    escaped (weatherHandler "Paris" ⟨"2024-01-01"⟩
        (fun _ => Except.error "No result from SerpAPI")) = true ∧
      weatherHandler "Paris" ⟨"2024-01-01"⟩
          (fun _ => Except.error "No result from SerpAPI") =
        Except.error "No result from SerpAPI" :=
  ⟨rfl, rfl⟩

/-- C1 (amended): the schedule handler resolves every invocation to one of
the three Envelope shapes (its try/catch turns every internal failure into
the Failure shape); the weather handler returns an envelope exactly when
its search call resolves, and a rejected search escapes it uncaught. -/
theorem handlers_envelope_shapes :
    (∀ day name file, isSuccessData (scheduleHandler day name file) ∨
        isEmptySuccess (scheduleHandler day name file) ∨
        isFailureShape (scheduleHandler day name file)) ∧
      ∀ loc dt search, weatherHandler loc dt search =
        Except.map weatherRespond (search (buildQuery loc dt)) := by
  constructor
  · intro day name file
    cases file with
    | absent =>
      right; right
      exact ⟨by simp [scheduleHandler, schedFailure], fileNotFoundMsg, rfl⟩
    | readError msg =>
      right; right
      exact ⟨by simp [scheduleHandler, schedFailure], msg, rfl⟩
    | ok records =>
      by_cases h : (applyFilters day name records).isEmpty = true
      · right; left
        exact ⟨by simp [scheduleHandler, h], by simp [scheduleHandler, h]⟩
      · left
        refine ⟨by simp [scheduleHandler, h], applyFilters day name records,
          ?_, by simp [scheduleHandler, h]⟩
        simpa [List.isEmpty_iff] using h
  · intro loc dt search
    cases hs : search (buildQuery loc dt) <;>
      simp [weatherHandler, hs, Except.map]

/-- C9 counterexample: a response whose `answer_box` section is present but
whose expected fields are all absent yields the projected-fields success
output with every field missing — not the "not found" sentinel that the
claim requires for a response lacking an expected field. -/
theorem weather_field_absent_no_sentinel :
    weatherHandler "Paris" ⟨"2024-01-01"⟩
        (fun _ => Except.ok ⟨some ⟨none, none, none⟩⟩) =
      Except.ok ⟨[⟨"text", "\x7b\x7d"⟩], .extracted none none none⟩ ∧
      (WeatherStructured.extracted none none none ≠
        WeatherStructured.result "not found") :=
  ⟨rfl, by decide⟩

/-- C9 (amended): when the search succeeds but the response lacks the
expected nested `answer_box` section, the weather tool returns a normal
success result whose structured output is the "not found" sentinel — not a
Failure envelope and not a raised error; when the section is present, it
returns a normal success result projecting the (possibly absent) fields,
with no sentinel. -/
theorem weather_not_found_sentinel :
    (∀ loc dt, weatherHandler loc dt (fun _ => Except.ok ⟨none⟩) =
      Except.ok ⟨[⟨"text", jsonStringify (.result "not found")⟩],
        .result "not found"⟩) ∧
      ∀ loc dt box, weatherHandler loc dt (fun _ => Except.ok ⟨some box⟩) =
        Except.ok ⟨[⟨"text", jsonStringify
            (.extracted box.temperature box.wind box.precipitation)⟩],
          .extracted box.temperature box.wind box.precipitation⟩ :=
  ⟨fun _ _ => rfl, fun _ _ _ => rfl⟩

theorem occursIn_last (p s : String) : occursIn p (s ++ p) :=
  occursIn_appendR (occursIn_refl p) s

theorem fields_in_recordText (r : CrewRecord) :
    occursIn r.Day (recordText r) ∧ occursIn r.Date (recordText r) ∧
      occursIn r.crewMember (recordText r) ∧ occursIn r.Role (recordText r) ∧
      occursIn r.shiftStart (recordText r) ∧
      occursIn r.shiftEnd (recordText r) ∧
      occursIn r.Activity (recordText r) ∧
      occursIn r.Location (recordText r) ∧
      ∀ nt, r.Notes = some nt → nt ≠ "" → occursIn nt (recordText r) := by
  unfold recordText
  simp only [String.append_assoc]
  refine ⟨?_, ?_, ?_, ?_, ?_, ?_, ?_, ?_, ?_⟩
  · iterate 1 apply occursIn_tail
    exact occursIn_head _ _
  · iterate 3 apply occursIn_tail
    exact occursIn_head _ _
  · iterate 5 apply occursIn_tail
    exact occursIn_head _ _
  · iterate 7 apply occursIn_tail
    exact occursIn_head _ _
  · iterate 9 apply occursIn_tail
    exact occursIn_head _ _
  · iterate 11 apply occursIn_tail
    exact occursIn_head _ _
  · iterate 13 apply occursIn_tail
    exact occursIn_head _ _
  · iterate 15 apply occursIn_tail
    exact occursIn_head _ _
  · intro nt hnt hne
    rw [hnt]
    have h : notesText (some nt) = "\n📝 " ++ nt := by simp [notesText, hne]
    rw [h]
    iterate 17 apply occursIn_tail
    exact occursIn_refl _

/-- C10: every record present in the structured result of a successful
lookup also appears in the rendered text summary with each of its fields —
day, date, crew member, role, shift start, shift end, activity, location,
and the note when one is present — no field is dropped from the text
formatting. -/
theorem record_fields_in_text (day name : Option String)
    (records : List CrewRecord) (r : CrewRecord)
    (hr : r ∈ resultsOf (scheduleHandler day name (.ok records))) :
    occursIn r.Day (textOf (scheduleHandler day name (.ok records))) ∧
      occursIn r.Date (textOf (scheduleHandler day name (.ok records))) ∧
      occursIn r.crewMember (textOf (scheduleHandler day name (.ok records))) ∧
      occursIn r.Role (textOf (scheduleHandler day name (.ok records))) ∧
      occursIn r.shiftStart (textOf (scheduleHandler day name (.ok records))) ∧
      occursIn r.shiftEnd (textOf (scheduleHandler day name (.ok records))) ∧
      occursIn r.Activity (textOf (scheduleHandler day name (.ok records))) ∧
      occursIn r.Location (textOf (scheduleHandler day name (.ok records))) ∧
      ∀ nt, r.Notes = some nt → nt ≠ "" →
        occursIn nt (textOf (scheduleHandler day name (.ok records))) := by
  have hmem : r ∈ applyFilters day name records := by
    rwa [resultsOf_scheduleHandler] at hr
  have hne : applyFilters day name records ≠ [] := by
    intro h
    rw [h] at hmem
    cases hmem
  have ht := textOf_scheduleHandler_ok day name records hne
  have hrt : occursIn (recordText r)
      (successText (applyFilters day name records)) := by
    unfold successText
    refine occursIn_tail ?_ _
    exact occursIn_joinSep (List.mem_map_of_mem recordText hmem) _
  have hf := fields_in_recordText r
  rw [ht]
  exact ⟨occursIn_trans hf.1 hrt, occursIn_trans hf.2.1 hrt,
    occursIn_trans hf.2.2.1 hrt, occursIn_trans hf.2.2.2.1 hrt,
    occursIn_trans hf.2.2.2.2.1 hrt, occursIn_trans hf.2.2.2.2.2.1 hrt,
    occursIn_trans hf.2.2.2.2.2.2.1 hrt,
    occursIn_trans hf.2.2.2.2.2.2.2.1 hrt,
    fun nt h1 h2 => occursIn_trans (hf.2.2.2.2.2.2.2.2 nt h1 h2) hrt⟩

/-- Witness for C10 at a concrete input: the one-row file with no filters. -/
theorem record_fields_in_text_witness :
    sampleRec ∈ resultsOf (scheduleHandler none none (.ok [sampleRec])) ∧
      (occursIn sampleRec.Day
          (textOf (scheduleHandler none none (.ok [sampleRec]))) ∧
        occursIn sampleRec.Date
          (textOf (scheduleHandler none none (.ok [sampleRec]))) ∧
        occursIn sampleRec.crewMember
          (textOf (scheduleHandler none none (.ok [sampleRec]))) ∧
        occursIn sampleRec.Role
          (textOf (scheduleHandler none none (.ok [sampleRec]))) ∧
        occursIn sampleRec.shiftStart
          (textOf (scheduleHandler none none (.ok [sampleRec]))) ∧
        occursIn sampleRec.shiftEnd
          (textOf (scheduleHandler none none (.ok [sampleRec]))) ∧
        occursIn sampleRec.Activity
          (textOf (scheduleHandler none none (.ok [sampleRec]))) ∧
        occursIn sampleRec.Location
          (textOf (scheduleHandler none none (.ok [sampleRec]))) ∧
        ∀ nt, sampleRec.Notes = some nt → nt ≠ "" →
          occursIn nt (textOf (scheduleHandler none none (.ok [sampleRec])))) :=
  ⟨by decide, record_fields_in_text none none [sampleRec] sampleRec (by decide)⟩
